import Mathlib

/-!
Shallow embedding of three checkov source files:
  * `checkov/common/bridgecrew/severities.py`
  * `checkov/common/bridgecrew/integration_features/features/repo_config_integration.py`
  * `checkov/common/output/ai.py`
Python strings manipulated character-wise are modelled as `List Char`
(Python `str` is a sequence of unicode code points); plain identifier-like
strings keep Lean's `String`.  Python's stable `sorted` is modelled by a
stable insertion sort, which agrees with any stable sort on a total
preorder key.  Fallible code (dict lookups that can raise `KeyError`,
`next()` that can raise `StopIteration`) is modelled in `Except`.
-/

namespace Checkov

/-! ## severities.py -/

/-- `class Severity` from `severities.py`: a name and a numeric level. -/
structure Severity where
  name : String
  level : Nat
deriving DecidableEq

/-- The fixed `Severities` dict, as an association list in insertion order
(`NONE`, `LOW`, `MEDIUM`, `MODERATE`, `HIGH`, `IMPORTANT`, `CRITICAL`, `OFF`).
Note the aliases: the `MODERATE` entry holds `Severity('MEDIUM', 2)` and the
`IMPORTANT` entry holds `Severity('HIGH', 3)`, exactly as in the source. -/
def Severities : List (String × Severity) :=
  [("NONE", ⟨"NONE", 0⟩),
   ("LOW", ⟨"LOW", 1⟩),
   ("MEDIUM", ⟨"MEDIUM", 2⟩),
   ("MODERATE", ⟨"MEDIUM", 2⟩),
   ("HIGH", ⟨"HIGH", 3⟩),
   ("IMPORTANT", ⟨"HIGH", 3⟩),
   ("CRITICAL", ⟨"CRITICAL", 4⟩),
   ("OFF", ⟨"OFF", 999⟩)]

/-- The values of the `Severities` dict (`Severities.values()`), in dict order. -/
def SeveritiesValues : List Severity := Severities.map Prod.snd

/-- Python dict subscript `Severities[name]`, which raises `KeyError` when the
key is absent; the failure is surfaced as `Except.error`. -/
def severitiesSubscript (name : String) : Except String Severity :=
  match Severities.lookup name with
  | some s => .ok s
  | none => .error "KeyError"

/-- `sorted(values, key=lambda s: s.level)`: stable ascending insertion step.
An element is inserted before the first strictly greater level, and after
all equal levels already present, which is exactly the order produced by
Python's stable sort. -/
def insertByLevel (s : Severity) : List Severity → List Severity
  | [] => [s]
  | x :: xs => if s.level ≤ x.level then s :: x :: xs else x :: insertByLevel s xs

/-- `sorted(Severities.values(), key=lambda s: s.level)` as a stable insertion
sort (structurally recursive so that concrete runs reduce in the kernel). -/
def sortByLevel : List Severity → List Severity
  | [] => []
  | x :: xs => insertByLevel x (sortByLevel xs)

/-- One iteration of the loop body of `get_highest_severity_below_level`:
`if severity.level < level and (not last or severity.level > last.level): last = severity`. -/
def belowStep (level : Nat) (last : Option Severity) (severity : Severity) : Option Severity :=
  match last with
  | none => if severity.level < level then some severity else none
  | some l => if severity.level < level ∧ l.level < severity.level then some severity else some l

/-- `get_highest_severity_below_level(level)` from `severities.py`. -/
def get_highest_severity_below_level (level : Nat) : Option Severity :=
  (sortByLevel SeveritiesValues).foldl (belowStep level) none

/-! ## repo_config_integration.py: CodeCategoryConfiguration -/

/-- `class CodeCategoryConfiguration`.  The thresholds stored by the program
are always entries of the `Severities` table (they are produced by
`Severities[...]` lookups in `_get_code_category_object`). -/
structure CodeCategoryConfiguration where
  category : String
  soft_fail_threshold : Severity
  hard_fail_threshold : Severity
deriving DecidableEq

/-- `is_global_soft_fail`: `self.hard_fail_threshold == Severities[BcSeverities.OFF]`.
Python `==` on `Severity` objects is identity; on entries of the table it
coincides with structural equality of the fields, because `OFF` is the only
table entry with name `"OFF"` and level `999`. -/
def is_global_soft_fail (c : CodeCategoryConfiguration) : Bool :=
  c.hard_fail_threshold == (⟨"OFF", 999⟩ : Severity)

/-- `get_skip_check_threshold`:
`get_highest_severity_below_level(self.soft_fail_threshold.level) or Severities[BcSeverities.NONE]`. -/
def get_skip_check_threshold (c : CodeCategoryConfiguration) : Severity :=
  (get_highest_severity_below_level c.soft_fail_threshold.level).getD ⟨"NONE", 0⟩

/-! ## repo_config_integration.py: enforcement-rule selection -/

/-- An enforcement rule from the `enforcementRules` payload.  Only the fields
read by `_set_enforcement_rules` are modelled: the `mainRule` flag, the
`accountName` strings of its `repositories`, and the raw `codeCategories`
dict mapping a category tag to its `softFailThreshold` / `hardFailThreshold`
severity names.  Python compares the rule dicts by value
(`r != default_rule`), modelled by structural equality. -/
structure EnforcementRule where
  mainRule : Bool
  repositories : List String
  codeCategories : List (String × String × String)
deriving DecidableEq

/-- The category tags enumerated from `CodeCategoryType.__dict__`. -/
def CodeCategoryTypeList : List String :=
  ["IAC", "OPEN_SOURCE", "SECRETS", "IMAGES", "SUPPLY_CHAIN"]

/-- `_get_code_category_object`: `None` when the tag is absent from the
rule's `codeCategories`, otherwise two `Severities[...]` lookups, each of
which can raise `KeyError`. -/
def get_code_category_object (codeCategories : List (String × String × String))
    (code_category_type : String) : Except String (Option CodeCategoryConfiguration) :=
  match codeCategories.lookup code_category_type with
  | none => .ok none
  | some (softName, hardName) => do
    let soft ← severitiesSubscript softName
    let hard ← severitiesSubscript hardName
    .ok (some ⟨code_category_type, soft, hard⟩)

/-- The exact-match test of the conflict branch of `_set_enforcement_rules`:
some repository of the rule satisfies `repo_matches(repo_name)` and
`repo_name == repo_id`.  The source scans `matched_rules` in order and keeps
the first rule containing such a repository, modelled by `List.find?` with
this predicate. -/
def ruleExactMatches (repo_matches : String → Bool) (repo_id : String)
    (r : EnforcementRule) : Bool :=
  r.repositories.any (fun repo => repo_matches repo && repo == repo_id)

/-- The candidate list of `_set_enforcement_rules`: every non-default rule
(`r != default_rule`, value comparison) with at least one matching
repository. -/
def matchedRules (repo_matches : String → Bool) (rules : List EnforcementRule)
    (default_rule : EnforcementRule) : List EnforcementRule :=
  (rules.filter (fun r => decide (r ≠ default_rule))).filter
    (fun r => r.repositories.any repo_matches)

/-- The rule-selection part of `_set_enforcement_rules`.
`next(r for r in rules if r['mainRule'] is True)` raising `StopIteration`
is surfaced as `Except.error`; the three branches are
`len(matched_rules) > 1` / `== 0` / `== 1`, with the conflict branch
selecting `exact_match_rule or matched_rules[0]`. -/
def selectEnforcementRule (repo_matches : String → Bool) (repo_id : String)
    (rules : List EnforcementRule) : Except String EnforcementRule :=
  match rules.find? (fun r => r.mainRule) with
  | none => .error "StopIteration"
  | some default_rule =>
    match matchedRules repo_matches rules default_rule with
    | [] => .ok default_rule
    | [r] => .ok r
    | r :: rest =>
      .ok (((r :: rest).find? (ruleExactMatches repo_matches repo_id)).getD r)

/-- A section of `vcsConfig['scannedFiles']['sections']`: its `repos` and its
`rule['excludePaths']`. -/
structure VcsSection where
  repos : List String
  excludePaths : List String
deriving DecidableEq

/-- `customer_run_config_response['vcsConfig']`, reduced to the fields read. -/
structure VcsConfig where
  sections : List VcsSection
deriving DecidableEq

/-- The fetched `customer_run_config_response` payload. -/
structure Payload where
  vcsConfig : VcsConfig
  enforcementRules : List EnforcementRule
deriving DecidableEq

/-- Python `set.update`: add the elements not already present, with the set
modelled as an insertion-ordered duplicate-free list. -/
def setUpdate (acc : List String) (new : List String) : List String :=
  new.foldl (fun a p => if p ∈ a then a else a ++ [p]) acc

/-- `_set_exclusion_paths`: union each matching section's `excludePaths`
into `skip_paths`.  `any(repo for repo in repos if repo_matches(repo))`
yields the matching repo STRINGS and `any` then tests their truthiness, so
a matching empty-string repo does not trigger the union.  (In
`_set_enforcement_rules` the same shape yields the repository DICTS, which
are always non-empty and hence truthy, so `matchedRules` needs no such
test.) -/
def set_exclusion_paths (repo_matches : String → Bool) (vcs : VcsConfig)
    (skip_paths : List String) : List String :=
  vcs.sections.foldl
    (fun acc sec =>
      if sec.repos.any (fun repo => repo_matches repo && decide (repo ≠ "")) then
        setUpdate acc sec.excludePaths
      else acc)
    skip_paths

/-- The mutable feature state of `RepoConfigIntegration` touched by `pre_scan`. -/
structure ResolverState where
  integration_feature_failures : Bool
  skip_paths : List String
  enforcement_rule : Option EnforcementRule
  code_category_configs : List (String × CodeCategoryConfiguration)
deriving DecidableEq

/-- The state of a freshly constructed `RepoConfigIntegration`. -/
def initState : ResolverState := ⟨false, [], none, []⟩

/-- Python dict assignment `d[k] = v` on an association list. -/
def assocSet (l : List (String × CodeCategoryConfiguration)) (k : String)
    (v : CodeCategoryConfiguration) : List (String × CodeCategoryConfiguration) :=
  if l.any (fun p => p.1 == k) then l.map (fun p => if p.1 == k then (k, v) else p)
  else l ++ [(k, v)]

/-- The `for code_category_type in [...]` loop closing
`_set_enforcement_rules`.  Python stores each config into
`self.code_category_configs` as it is built, so a `KeyError` raised
mid-loop leaves the earlier assignments in place: an error carries the
configs stored so far. -/
def storeCategoryConfigs (rule : EnforcementRule) :
    List String → List (String × CodeCategoryConfiguration) →
      Except (String × List (String × CodeCategoryConfiguration))
        (List (String × CodeCategoryConfiguration))
  | [], configs => .ok configs
  | cat :: cats, configs =>
    match get_code_category_object rule.codeCategories cat with
    | .error e => .error (e, configs)
    | .ok none => storeCategoryConfigs rule cats configs
    | .ok (some config) => storeCategoryConfigs rule cats (assocSet configs cat config)

/-- `_set_enforcement_rules` in full.  `self.enforcement_rule` is assigned
in every selection branch BEFORE the category loop runs, and the loop
mutates `self.code_category_configs` incrementally, so an exception raised
along the way carries the state as mutated so far — exactly what Python's
object retains when the exception propagates. -/
def set_enforcement_rules (repo_matches : String → Bool) (repo_id : String)
    (rules : List EnforcementRule) (s : ResolverState) :
    Except (String × ResolverState) ResolverState :=
  match selectEnforcementRule repo_matches repo_id rules with
  | .error e => .error (e, s)
  | .ok rule =>
    let s1 := { s with enforcement_rule := some rule }
    match storeCategoryConfigs rule CodeCategoryTypeList s1.code_category_configs with
    | .error (e, configs) => .error (e, { s1 with code_category_configs := configs })
    | .ok configs => .ok { s1 with code_category_configs := configs }

/-- The `try` body of `pre_scan`.  `response = none` models a falsy
`customer_run_config_response` (nothing fetched from the platform).
Errors carry the state as mutated up to the raise. -/
def pre_scan_body (repo_matches : String → Bool) (repo_id : String)
    (response : Option Payload) (s : ResolverState) :
    Except (String × ResolverState) ResolverState :=
  match response with
  | none => .ok { s with integration_feature_failures := true }
  | some payload =>
    let s1 := { s with
      skip_paths := set_exclusion_paths repo_matches payload.vcsConfig s.skip_paths }
    set_enforcement_rules repo_matches repo_id payload.enforcementRules s1

/-- `pre_scan`: the body wrapped in `try/except Exception`; the `except`
clause sets the failure flag on the object exactly as mutated at the point
the exception was raised (Python mutations made before the raise persist). -/
def pre_scan (repo_matches : String → Bool) (repo_id : String)
    (response : Option Payload) (s : ResolverState) : ResolverState :=
  match pre_scan_body repo_matches repo_id response s with
  | .ok s1 => s1
  | .error (_, s1) => { s1 with integration_feature_failures := true }

/-! ## ai.py -/

/-- Python `str` as a list of unicode characters. -/
abbrev Str := List Char

/-- A Lean string literal viewed as a Python string. -/
def str (s : String) : Str := s.data

/-- The fields of `Record` read or written by the enrichment step. -/
structure Record where
  check_name : Str
  severity : Option Severity
  code_block : List (Nat × Str)
  details : List Str
deriving DecidableEq

/-- `record.severity.level if record.severity else 0`. -/
def recordLevel (r : Record) : Nat :=
  match r.severity with
  | some s => s.level
  | none => 0

/-- `sorted(records, key=lambda r: level, reverse=True)`: stable descending
insertion step.  A record is inserted before the first strictly lower level
and after all equal levels already present, which is the order produced by
Python's stable sort with `reverse=True`. -/
def insertRecDesc (r : Record) : List Record → List Record
  | [] => [r]
  | x :: xs =>
    if recordLevel x ≤ recordLevel r then r :: x :: xs else x :: insertRecDesc r xs

/-- The stable descending sort of `_prioritize_findings` (structurally
recursive so concrete runs reduce in the kernel). -/
def sortRecordsDesc : List Record → List Record
  | [] => []
  | x :: xs => insertRecDesc x (sortRecordsDesc xs)

/-- `_prioritize_findings`, with the configured maximum
(`CKV_OPENAI_MAX_FINDINGS`) as an explicit parameter;
`sorted_records[-max:]` is `drop (length - max)`. -/
def prioritize_findings (max_findings : Nat) (records : List Record) : List Record :=
  if 0 < max_findings ∧ max_findings < records.length then
    let sorted_records := sortRecordsDesc records
    sorted_records.drop (sorted_records.length - max_findings)
  else records

/-- The batch construction of `_generate_guidelines`.  Faithful to the
source: the slices in the `> 20` branch are taken from the ORIGINAL
`records` list (`records[i : i + batch_size]`) while the index range is
driven by `len(enhance_records)`. -/
def generate_batches (max_findings : Nat) (records : List Record) : List (List Record) :=
  let enhance_records := prioritize_findings max_findings records
  if enhance_records.length > 20 then
    (List.range' 0 ((enhance_records.length + 9) / 10) 10).map
      (fun i => (records.drop i).take 10)
  else [enhance_records]

/-- A chat message dict `{"role": ..., "content": ...}`. -/
structure ChatMessage where
  role : Str
  content : Str
deriving DecidableEq

/-- The ASCII apostrophe used by the prompt f-string. -/
def apostrophe : Char := Char.ofNat 39

/-- The content of the prompt message:
`f"fix following code, which violates checkov policy {name}:\n"` (with the
check name quoted) followed by the joined code-block lines. -/
def promptContent (record : Record) : Str :=
  str "fix following code, which violates checkov policy " ++ [apostrophe]
    ++ record.check_name ++ [apostrophe] ++ str ":\n"
    ++ (record.code_block.map Prod.snd).flatten

/-- `messages = [...],` — the trailing comma makes the assigned value a
ONE-ELEMENT TUPLE holding the three-message list, modelled as a singleton
list of lists. -/
def messagesAssigned (record : Record) : List (List ChatMessage) :=
  [[⟨str "system", str "You are a security tool"⟩,
    ⟨str "user", promptContent record⟩,
    ⟨str "user", str "Explain"⟩]]

/-- `messages[0]`: the value actually passed as the `messages=` argument of
`openai.ChatCompletion.acreate` in both provider branches. -/
def messagesArg (record : Record) : List ChatMessage :=
  (messagesAssigned record).headD []

/-- The leading disclaimer line of `_parse_completion_response`. -/
def disclaimerLine : Str :=
  str "The following text is AI generated and should be treated as a suggestion."

/-- Worker for `pySplitlines`; the accumulator holds the current line
reversed. -/
def splitLinesAux : List Char → List Char → List Str
  | [], acc => if acc.isEmpty then [] else [acc.reverse]
  | c :: cs, acc =>
    if c == '\n' then acc.reverse :: splitLinesAux cs []
    else splitLinesAux cs (c :: acc)

/-- Python `str.splitlines` restricted to `'\n'` separators: a trailing
newline does not produce a final empty line, and `"".splitlines() == []`. -/
def pySplitlines (s : Str) : List Str := splitLinesAux s []

/-- The backtick character. -/
def backtick : Char := Char.ofNat 96

/-- Python substring test `pat in s`. -/
def containsSub (pat : Str) : Str → Bool
  | [] => pat.isEmpty
  | c :: cs => pat.isPrefixOf (c :: cs) || containsSub pat cs

/-- `"```" in line`. -/
def containsFence (line : Str) : Bool := containsSub [backtick, backtick, backtick] line

/-- Python whitespace stripped by `str.strip()` (ASCII subset). -/
def isPySpace (c : Char) : Bool :=
  c == ' ' || c == '\t' || c == '\n' || c == '\r' || c == Char.ofNat 11 || c == Char.ofNat 12

/-- `line.strip()`. -/
def strTrim (s : Str) : Str :=
  ((s.dropWhile isPySpace).reverse.dropWhile isPySpace).reverse

/-- Worker for `strSplitOn`: Python `str.split(sep)` for a non-empty
separator, fuelled so the recursion is structural (each step consumes at
least one character, so fuel `s.length` always suffices). -/
def splitOnAux (sep : Str) : Nat → Str → Str → List Str
  | _, [], acc => [acc.reverse]
  | 0, rest, acc => [acc.reverse ++ rest]
  | fuel + 1, c :: cs, acc =>
    if sep.isPrefixOf (c :: cs) then
      acc.reverse :: splitOnAux sep fuel (List.drop (sep.length - 1) cs) []
    else splitOnAux sep fuel cs (c :: acc)

/-- `s.split(sep)` for a non-empty separator: split on non-overlapping
occurrences, left to right. -/
def strSplitOn (sep s : Str) : List Str := splitOnAux sep s.length s []

/-- Python `sentence.endswith((".", ":"))`. -/
def endsDotColon (s : Str) : Bool :=
  s.getLast? == some '.' || s.getLast? == some ':'

/-- `sentence if sentence.endswith((".", ":")) else f"{sentence}."`. -/
def fixSentence (s : Str) : Str := if endsDotColon s then s else s ++ ['.']

/-- The handling of a non-empty prose line: `line.strip().split(". ")` with
every fragment made to end in `"."` or `":"`. -/
def proseLine (line : Str) : List Str :=
  (strSplitOn (str ". ") (strTrim line)).map fixSentence

/-- The line loop of `_parse_completion_response`, as a structural recursion
equivalent to the Python `for` loop appending to `result`; the `Bool` is the
`in_code_block` flag. -/
def processLines : Bool → List Str → List Str
  | _, [] => []
  | in_code_block, line :: rest =>
    if containsFence line then processLines (!in_code_block) rest
    else if in_code_block then line :: processLines in_code_block rest
    else if line.isEmpty then line :: processLines in_code_block rest
    else proseLine line ++ processLines in_code_block rest

/-- `_parse_completion_response`. -/
def parse_completion_response (completion_content : Str) : List Str :=
  (if completion_content.isEmpty then [] else [disclaimerLine, []])
    ++ processLines false (pySplitlines completion_content)

/-- `_chat_complete`, with the completion call abstracted as an oracle from
the `messages=` argument to either a raised exception or the returned
content (`completion.choices[0].message.content`).  The `Bool` component
records whether a completion request was issued. -/
def chat_complete (oracle : List ChatMessage → Except Str Str) (record : Record) :
    Record × Bool :=
  if record.code_block.isEmpty then (record, false)
  else
    match oracle (messagesArg record) with
    | .error _ => (record, true)
    | .ok content =>
      let details := parse_completion_response content
      if details.isEmpty then (record, true)
      else ({ record with details := details }, true)

/-- `asyncio.gather` over one batch: each record is enriched independently
and every task runs to completion. -/
def processBatch (oracle : List ChatMessage → Except Str Str) (batch : List Record) :
    List Record :=
  batch.map (fun r => (chat_complete oracle r).1)

/-- A finding with severity level `n` (used at concrete inputs). -/
def mkRecord (n : Nat) : Record :=
  { check_name := str "c", severity := some ⟨"S", n⟩,
    code_block := [(0, str "x")], details := [] }

/-- 25 findings with severity levels `0,…,24` in ascending order. -/
def records25 : List Record := (List.range 25).map mkRecord

end Checkov

namespace Checkov

/-- Unfolding equation for `get_skip_check_threshold` on a literal configuration. -/
theorem get_skip_check_threshold_mk (cat : String) (soft hard : Severity) :
    get_skip_check_threshold ⟨cat, soft, hard⟩
      = (get_highest_severity_below_level soft.level).getD ⟨"NONE", 0⟩ := rfl

end Checkov

namespace Checkov

/-- C1: for every `CodeCategoryConfiguration` whose thresholds are entries of
the `Severities` table, `get_skip_check_threshold` returns a severity of the
table whose level is at least that of every table severity strictly below the
soft-fail threshold, and which is itself strictly below the soft-fail
threshold unless no table severity lies strictly below it, in which case it
is `NONE` (level 0); in particular soft-fail `MEDIUM(2)` gives `LOW(1)` and
soft-fail `LOW(1)` gives `NONE(0)`. -/
theorem get_skip_check_threshold_spec (cat : String) (soft hard : Severity)
    (hs : soft ∈ SeveritiesValues) (hh : hard ∈ SeveritiesValues) :
    get_skip_check_threshold ⟨cat, soft, hard⟩ ∈ SeveritiesValues ∧
    (∀ s ∈ SeveritiesValues, s.level < soft.level →
        s.level ≤ (get_skip_check_threshold ⟨cat, soft, hard⟩).level) ∧
    ((get_skip_check_threshold ⟨cat, soft, hard⟩).level < soft.level ∨
      (get_skip_check_threshold ⟨cat, soft, hard⟩ = ⟨"NONE", 0⟩ ∧
        ∀ s ∈ SeveritiesValues, ¬ s.level < soft.level)) ∧
    (soft = ⟨"MEDIUM", 2⟩ → get_skip_check_threshold ⟨cat, soft, hard⟩ = ⟨"LOW", 1⟩) ∧
    (soft = ⟨"LOW", 1⟩ → get_skip_check_threshold ⟨cat, soft, hard⟩ = ⟨"NONE", 0⟩) := by
  clear hh
  rw [get_skip_check_threshold_mk]
  simp only [SeveritiesValues, Severities, List.map, List.mem_cons, List.not_mem_nil,
    or_false] at hs
  rcases hs with rfl | rfl | rfl | rfl | rfl | rfl | rfl | rfl <;> decide

/-- Witness for C1 at soft-fail `MEDIUM(2)`, hard-fail `OFF(999)`. -/
theorem get_skip_check_threshold_spec_witness :
    (⟨"MEDIUM", 2⟩ : Severity) ∈ SeveritiesValues ∧
    get_skip_check_threshold ⟨"IAC", ⟨"MEDIUM", 2⟩, ⟨"OFF", 999⟩⟩ = ⟨"LOW", 1⟩ :=
  ⟨by decide,
   (get_skip_check_threshold_spec "IAC" ⟨"MEDIUM", 2⟩ ⟨"OFF", 999⟩
      (by decide) (by decide)).2.2.2.1 rfl⟩

/-- C5: for every `CodeCategoryConfiguration` whose hard-fail threshold is an
entry of the `Severities` table, `is_global_soft_fail` is `true` iff the
hard-fail threshold's level equals the `OFF` sentinel level `999`. -/
theorem is_global_soft_fail_spec (c : CodeCategoryConfiguration)
    (hh : c.hard_fail_threshold ∈ SeveritiesValues) :
    is_global_soft_fail c = true ↔ c.hard_fail_threshold.level = 999 := by
  obtain ⟨cat, soft, hard⟩ := c
  change (hard == (⟨"OFF", 999⟩ : Severity)) = true ↔ hard.level = 999
  simp only [SeveritiesValues, Severities, List.map, List.mem_cons, List.not_mem_nil,
    or_false] at hh
  rcases hh with rfl | rfl | rfl | rfl | rfl | rfl | rfl | rfl <;> decide

/-- Witness for C5 at hard-fail `OFF(999)`. -/
theorem is_global_soft_fail_spec_witness :
    (⟨"OFF", 999⟩ : Severity) ∈ SeveritiesValues ∧
    (is_global_soft_fail ⟨"IAC", ⟨"LOW", 1⟩, ⟨"OFF", 999⟩⟩ = true ↔
      (⟨"OFF", 999⟩ : Severity).level = 999) :=
  ⟨by decide, is_global_soft_fail_spec ⟨"IAC", ⟨"LOW", 1⟩, ⟨"OFF", 999⟩⟩ (by decide)⟩

/-- `List.find?` returns the unique element of a singleton filter. -/
theorem find?_of_filter_singleton {α : Type} (p : α → Bool) :
    ∀ (l : List α) (a : α), l.filter p = [a] → l.find? p = some a := by
  intro l
  induction l with
  | nil => intro a h; simp [List.filter] at h
  | cons x xs ih =>
    intro a h
    by_cases hx : p x = true
    · rw [List.filter_cons_of_pos hx] at h
      rw [List.find?_cons_of_pos _ hx]
      exact congrArg some (List.cons.injEq .. |>.mp h).1
    · rw [List.filter_cons_of_neg (by simpa using hx)] at h
      rw [List.find?_cons_of_neg _ hx]
      exact ih a h

/-- C2 (amended): when the payload has exactly one rule flagged default, the
resolver selects the default rule on zero candidates and the unique candidate
on one; on more than one candidate it selects the first candidate containing
a repository that satisfies the matching predicate AND is string-equal to the
configured repo id, when such a candidate exists, and the first candidate
otherwise. -/
theorem selectEnforcementRule_spec (repo_matches : String → Bool) (repo_id : String)
    (rules : List EnforcementRule) (d : EnforcementRule)
    (hd : rules.filter (fun r => r.mainRule) = [d]) :
    (matchedRules repo_matches rules d = [] →
        selectEnforcementRule repo_matches repo_id rules = .ok d) ∧
    (∀ r, matchedRules repo_matches rules d = [r] →
        selectEnforcementRule repo_matches repo_id rules = .ok r) ∧
    (1 < (matchedRules repo_matches rules d).length →
      (∃ r ∈ matchedRules repo_matches rules d,
          ruleExactMatches repo_matches repo_id r = true) →
      ∃ e, selectEnforcementRule repo_matches repo_id rules = .ok e ∧
        e ∈ matchedRules repo_matches rules d ∧
        ruleExactMatches repo_matches repo_id e = true ∧
        (matchedRules repo_matches rules d).find? (ruleExactMatches repo_matches repo_id)
          = some e) ∧
    (1 < (matchedRules repo_matches rules d).length →
      (∀ r ∈ matchedRules repo_matches rules d,
          ruleExactMatches repo_matches repo_id r = false) →
      ∀ c, (matchedRules repo_matches rules d).head? = some c →
        selectEnforcementRule repo_matches repo_id rules = .ok c) := by
  have hfind : rules.find? (fun r => r.mainRule) = some d :=
    find?_of_filter_singleton _ rules d hd
  rcases hm : matchedRules repo_matches rules d with - | ⟨r1, - | ⟨r2, rest⟩⟩
  · refine ⟨fun _ => ?_, ?_, ?_, ?_⟩
    · simp [selectEnforcementRule, hfind, hm]
    · intro r hr; exact absurd hr (by simp)
    · intro hlen; simp at hlen
    · intro hlen; simp at hlen
  · refine ⟨?_, fun r hr => ?_, ?_, ?_⟩
    · intro h; exact absurd h (by simp)
    · obtain rfl : r1 = r := by simpa using hr
      simp [selectEnforcementRule, hfind, hm]
    · intro hlen; simp at hlen
    · intro hlen; simp at hlen
  · have hsel : selectEnforcementRule repo_matches repo_id rules
        = .ok (((r1 :: r2 :: rest).find?
            (ruleExactMatches repo_matches repo_id)).getD r1) := by
      simp [selectEnforcementRule, hfind, hm]
    refine ⟨?_, fun r hr => ?_, ?_, ?_⟩
    · intro h; exact absurd h (by simp)
    · exact absurd hr (by simp)
    · intro _ hex
      rcases hf : (r1 :: r2 :: rest).find? (ruleExactMatches repo_matches repo_id) with - | e
      · obtain ⟨r, hr, hrex⟩ := hex
        have := List.find?_eq_none.mp hf r hr
        simp [hrex] at this
      · exact ⟨e, by rw [hsel, hf]; rfl, List.mem_of_find?_eq_some hf,
          List.find?_some hf, rfl⟩
    · intro _ hall c hc
      have hf : (r1 :: r2 :: rest).find? (ruleExactMatches repo_matches repo_id) = none :=
        List.find?_eq_none.mpr (fun x hx => by simp [hall x hx])
      obtain rfl : r1 = c := by simpa using hc
      rw [hsel, hf]
      rfl

/-- C2 counterexample: with a predicate matching `"A"` and `"B"` but not the
configured id `"RID"`, the candidates are `R0` (repos `["B"]`) and `R1`
(repos `["A", "RID"]`); `R1` lists a repository identifier string-equal to
the configured repo id, yet the resolver selects `R0`, which does not. -/
theorem selectEnforcementRule_counterexample :
    selectEnforcementRule (fun s => s == "A" || s == "B") "RID"
        [⟨true, [], []⟩, ⟨false, ["B"], []⟩, ⟨false, ["A", "RID"], []⟩]
      = .ok ⟨false, ["B"], []⟩ ∧
    matchedRules (fun s => s == "A" || s == "B")
        [⟨true, [], []⟩, ⟨false, ["B"], []⟩, ⟨false, ["A", "RID"], []⟩] ⟨true, [], []⟩
      = [⟨false, ["B"], []⟩, ⟨false, ["A", "RID"], []⟩] ∧
    "RID" ∈ (⟨false, ["A", "RID"], []⟩ : EnforcementRule).repositories ∧
    "RID" ∉ (⟨false, ["B"], []⟩ : EnforcementRule).repositories :=
  ⟨rfl, by decide, by decide, by decide⟩

/-- Witness for C2 (amended) on the conflict branch: two candidates, the
second of which carries an exact match of the configured repo id. -/
theorem selectEnforcementRule_spec_witness :
    ∃ e, selectEnforcementRule (fun s => s == "B" || s == "RID") "RID"
        [⟨true, [], []⟩, ⟨false, ["B"], []⟩, ⟨false, ["RID"], []⟩] = .ok e ∧
      e ∈ matchedRules (fun s => s == "B" || s == "RID")
          [⟨true, [], []⟩, ⟨false, ["B"], []⟩, ⟨false, ["RID"], []⟩] ⟨true, [], []⟩ ∧
      ruleExactMatches (fun s => s == "B" || s == "RID") "RID" e = true ∧
      (matchedRules (fun s => s == "B" || s == "RID")
          [⟨true, [], []⟩, ⟨false, ["B"], []⟩, ⟨false, ["RID"], []⟩] ⟨true, [], []⟩).find?
        (ruleExactMatches (fun s => s == "B" || s == "RID") "RID") = some e :=
  (selectEnforcementRule_spec (fun s => s == "B" || s == "RID") "RID"
      [⟨true, [], []⟩, ⟨false, ["B"], []⟩, ⟨false, ["RID"], []⟩] ⟨true, [], []⟩
      (by decide)).2.2.1 (by decide) (by decide)

/-- C7: `pre_scan` never aborts the scan: an absent payload only sets the
feature-failure flag (from the initial state the exclusion set stays empty
and no enforcement rule is selected), and any exception raised by the body
is swallowed — the result is the state exactly as mutated up to the raise
(mutations made before the exception persist, as in Python), with the
feature-failure flag set. -/
theorem pre_scan_spec (repo_matches : String → Bool) (repo_id : String)
    (response : Option Payload) (s : ResolverState) :
    (response = none →
      pre_scan repo_matches repo_id response s
        = { s with integration_feature_failures := true } ∧
      (pre_scan repo_matches repo_id none initState).skip_paths = [] ∧
      (pre_scan repo_matches repo_id none initState).enforcement_rule = none ∧
      (pre_scan repo_matches repo_id none initState).integration_feature_failures = true) ∧
    (∀ e s1, pre_scan_body repo_matches repo_id response s = .error (e, s1) →
      pre_scan repo_matches repo_id response s
        = { s1 with integration_feature_failures := true }) := by
  constructor
  · rintro rfl
    exact ⟨rfl, rfl, rfl, rfl⟩
  · intro e s1 he
    unfold pre_scan
    rw [he]

/-- Witness for C7: the absent-payload branch, and a payload whose vcs
section matches (populating `skip_paths`) but whose rule list has no default
rule, so `next(...)` raises `StopIteration`: the exception is swallowed, the
failure flag is set, and the exclusion path added before the raise is kept. -/
theorem pre_scan_spec_witness :
    pre_scan (fun _ => true) "org/repo" none initState
      = { initState with integration_feature_failures := true } ∧
    pre_scan (fun _ => true) "org/repo"
        (some ⟨⟨[⟨["acct"], ["path1"]⟩]⟩, []⟩) initState
      = { initState with integration_feature_failures := true, skip_paths := ["path1"] } :=
  ⟨((pre_scan_spec (fun _ => true) "org/repo" none initState).1 rfl).1,
   (pre_scan_spec (fun _ => true) "org/repo"
       (some ⟨⟨[⟨["acct"], ["path1"]⟩]⟩, []⟩) initState).2
     "StopIteration" { initState with skip_paths := ["path1"] } rfl⟩

end Checkov

namespace Checkov

/-- Inserting into the stable descending sort permutes consing. -/
theorem perm_insertRecDesc (r : Record) :
    ∀ l : List Record, List.Perm (insertRecDesc r l) (r :: l) := by
  intro l
  induction l with
  | nil => simp [insertRecDesc]
  | cons x xs ih =>
    unfold insertRecDesc
    by_cases h : recordLevel x ≤ recordLevel r
    · simp [h]
    · rw [if_neg h]
      exact (List.Perm.cons x ih).trans (List.Perm.swap r x xs)

/-- `sortRecordsDesc` permutes its input. -/
theorem perm_sortRecordsDesc :
    ∀ l : List Record, List.Perm (sortRecordsDesc l) l := by
  intro l
  induction l with
  | nil => simp [sortRecordsDesc]
  | cons x xs ih =>
    exact (perm_insertRecDesc x (sortRecordsDesc xs)).trans (List.Perm.cons x ih)

/-- Insertion preserves the descending-by-level pairwise order. -/
theorem pairwise_insertRecDesc (r : Record) (l : List Record)
    (h : l.Pairwise (fun a b => recordLevel b ≤ recordLevel a)) :
    (insertRecDesc r l).Pairwise (fun a b => recordLevel b ≤ recordLevel a) := by
  induction l with
  | nil => simp [insertRecDesc]
  | cons x xs ih =>
    rw [List.pairwise_cons] at h
    obtain ⟨hx, hxs⟩ := h
    unfold insertRecDesc
    by_cases hc : recordLevel x ≤ recordLevel r
    · rw [if_pos hc, List.pairwise_cons]
      refine ⟨?_, List.pairwise_cons.mpr ⟨hx, hxs⟩⟩
      intro y hy
      rcases List.mem_cons.mp hy with rfl | hy
      · exact hc
      · exact (hx y hy).trans hc
    · rw [if_neg hc, List.pairwise_cons]
      refine ⟨?_, ih hxs⟩
      intro y hy
      have hy2 : y ∈ r :: xs := (perm_insertRecDesc r xs).subset hy
      rcases List.mem_cons.mp hy2 with rfl | hy2
      · exact Nat.le_of_lt (Nat.lt_of_not_le hc)
      · exact hx y hy2

/-- The stable descending sort is pairwise descending by level. -/
theorem pairwise_sortRecordsDesc :
    ∀ l : List Record,
      (sortRecordsDesc l).Pairwise (fun a b => recordLevel b ≤ recordLevel a) := by
  intro l
  induction l with
  | nil => simp [sortRecordsDesc]
  | cons x xs ih => exact pairwise_insertRecDesc x (sortRecordsDesc xs) ih

/-- C3: when the configured maximum is positive and the findings exceed it,
`_prioritize_findings` returns exactly `max` findings, namely the tail of
the stable descending-by-severity sort of the original list; together with
the dropped head of that sort it is a permutation of the original list, and
every kept finding has severity level at most that of every dropped finding.
Otherwise the list is returned unchanged. -/
theorem prioritize_findings_spec (max_findings : Nat) (records : List Record) :
    (¬ (0 < max_findings ∧ max_findings < records.length) →
        prioritize_findings max_findings records = records) ∧
    (0 < max_findings → max_findings < records.length →
      (prioritize_findings max_findings records).length = max_findings ∧
      prioritize_findings max_findings records
        = (sortRecordsDesc records).drop (records.length - max_findings) ∧
      List.Perm ((sortRecordsDesc records).take (records.length - max_findings)
          ++ prioritize_findings max_findings records) records ∧
      (∀ a ∈ prioritize_findings max_findings records,
       ∀ b ∈ (sortRecordsDesc records).take (records.length - max_findings),
         recordLevel a ≤ recordLevel b)) := by
  have hlen : (sortRecordsDesc records).length = records.length :=
    (perm_sortRecordsDesc records).length_eq
  constructor
  · intro h
    unfold prioritize_findings
    rw [if_neg h]
  · intro h1 h2
    have hcond : 0 < max_findings ∧ max_findings < records.length := ⟨h1, h2⟩
    have heq : prioritize_findings max_findings records
        = (sortRecordsDesc records).drop (records.length - max_findings) := by
      unfold prioritize_findings
      rw [if_pos hcond]
      show List.drop ((sortRecordsDesc records).length - max_findings) _ = _
      rw [hlen]
    refine ⟨?_, heq, ?_, ?_⟩
    · rw [heq, List.length_drop, hlen]
      omega
    · rw [heq, List.take_append_drop]
      exact perm_sortRecordsDesc records
    · intro a ha b hb
      rw [heq] at ha
      have hp := pairwise_sortRecordsDesc records
      rw [← List.take_append_drop (records.length - max_findings)
            (sortRecordsDesc records), List.pairwise_append] at hp
      exact hp.2.2 b hb a ha

/-- Witness for C3: 25 findings with levels `0,…,24` and maximum 5; exactly
the 5 lowest-severity findings (levels `4,3,2,1,0`) are kept. -/
theorem prioritize_findings_spec_witness :
    (prioritize_findings 5 records25).length = 5 ∧
    (prioritize_findings 5 records25).map recordLevel = [4, 3, 2, 1, 0] :=
  ⟨((prioritize_findings_spec 5 records25).2 (by decide) (by decide)).1, by decide⟩

/-- C4 (failing run): with maximum 21 and the 25 findings of `records25`
(ascending severity), the prioritized list is the 21 lowest-severity
findings, but the concatenation of the batches is the ENTIRE original list
of 25 findings — the batch slices are taken from `records`, not from the
prioritized `enhance_records`.  The claim's unlimited example does hold:
with maximum 0 the batches have sizes 10/10/5 and concatenate to the list
being enriched. -/
theorem generate_batches_failing_input :
    (generate_batches 21 records25).flatten = records25 ∧
    records25.length = 25 ∧
    (prioritize_findings 21 records25).length = 21 ∧
    (generate_batches 21 records25).flatten ≠ prioritize_findings 21 records25 ∧
    (generate_batches 21 records25).map List.length = [10, 10, 5] ∧
    (generate_batches 0 records25).map List.length = [10, 10, 5] ∧
    (generate_batches 0 records25).flatten = prioritize_findings 0 records25 := by
  decide

end Checkov

namespace Checkov

/-- Inside a fenced region `processLines` copies lines verbatim until the
closing fence, then resumes prose mode. -/
theorem processLines_code_block (f : Str) (hf : containsFence f = true) :
    ∀ (code post : List Str), (∀ l ∈ code, containsFence l = false) →
      processLines true (code ++ f :: post) = code ++ processLines false post := by
  intro code
  induction code with
  | nil =>
    intro post _
    simp [processLines, hf]
  | cons l ls ih =>
    intro post hcode
    have hl : containsFence l = false := hcode l (List.mem_cons_self ..)
    rw [List.cons_append]
    have hstep : processLines true (l :: (ls ++ f :: post))
        = l :: processLines true (ls ++ f :: post) := by
      simp [processLines, hl]
    rw [hstep, ih post (fun x hx => hcode x (List.mem_cons_of_mem _ hx)),
      List.cons_append]

/-- C6: `_parse_completion_response` prefixes non-empty responses with the
disclaimer line and one blank line; lines between two fence-delimiter lines
are reproduced unchanged (and the delimiters dropped); a non-empty prose
line is stripped, split on `". "`, and every fragment not already ending in
`"."` or `":"` gets a `"."` appended; `"Do this. Do that"` yields the two
lines `"Do this."` and `"Do that."`. -/
theorem parse_completion_response_spec :
    (∀ content : Str, content ≠ [] →
        parse_completion_response content
          = disclaimerLine :: [] :: processLines false (pySplitlines content)) ∧
    parse_completion_response (str "") = [] ∧
    (∀ (f : Str) (code post : List Str), containsFence f = true →
        (∀ l ∈ code, containsFence l = false) →
        processLines false (f :: (code ++ f :: post))
          = code ++ processLines false post) ∧
    (∀ (line : Str) (rest : List Str), containsFence line = false → line ≠ [] →
        processLines false (line :: rest)
          = (strSplitOn (str ". ") (strTrim line)).map fixSentence
              ++ processLines false rest) ∧
    (∀ s : Str, s.getLast? = some '.' ∨ s.getLast? = some ':' → fixSentence s = s) ∧
    (∀ s : Str, s.getLast? ≠ some '.' → s.getLast? ≠ some ':' →
        fixSentence s = s ++ ['.']) ∧
    parse_completion_response (str "Do this. Do that")
      = [disclaimerLine, [], str "Do this.", str "Do that."] := by
  refine ⟨?_, by decide, ?_, ?_, ?_, ?_, by decide⟩
  · intro content hc
    unfold parse_completion_response
    rw [if_neg (by simpa using hc)]
    rfl
  · intro f code post hf hcode
    have hstep : processLines false (f :: (code ++ f :: post))
        = processLines true (code ++ f :: post) := by
      simp [processLines, hf]
    rw [hstep, processLines_code_block f hf code post hcode]
  · intro line rest hl hne
    have hne2 : line.isEmpty = false := List.isEmpty_eq_false.mpr hne
    simp [processLines, hl, hne2, proseLine]
  · intro s hs
    unfold fixSentence endsDotColon
    rcases hs with h | h <;> simp [h]
  · intro s h1 h2
    unfold fixSentence endsDotColon
    rw [if_neg]
    simp [h1, h2]

/-- Witness for C6: every hypothesis-bearing conjunct applied at a concrete
input. -/
theorem parse_completion_response_spec_witness :
    parse_completion_response (str "x")
      = disclaimerLine :: [] :: processLines false (pySplitlines (str "x")) ∧
    processLines false
        ([backtick, backtick, backtick]
          :: ([str "a = 1"] ++ [backtick, backtick, backtick] :: [str "end. here"]))
      = [str "a = 1"] ++ processLines false [str "end. here"] ∧
    processLines false [str "Do this. Do that"]
      = (strSplitOn (str ". ") (strTrim (str "Do this. Do that"))).map fixSentence
          ++ processLines false [] ∧
    fixSentence (str "a.") = str "a." ∧
    fixSentence (str "b") = str "b" ++ ['.'] :=
  ⟨parse_completion_response_spec.1 (str "x") (by decide),
   parse_completion_response_spec.2.2.1 [backtick, backtick, backtick]
     [str "a = 1"] [str "end. here"] (by decide) (by decide),
   parse_completion_response_spec.2.2.2.1 (str "Do this. Do that") []
     (by decide) (by decide),
   parse_completion_response_spec.2.2.2.2.1 (str "a.") (Or.inl (by decide)),
   parse_completion_response_spec.2.2.2.2.2.1 (str "b") (by decide) (by decide)⟩

/-- C8: a finding without a code snippet issues no completion request and is
returned unchanged; a raised request error is swallowed, leaving the finding
unchanged; and a batch is processed element-wise, so each output finding
depends only on its own record. -/
theorem chat_complete_spec (oracle : List ChatMessage → Except Str Str) (record : Record) :
    (record.code_block = [] → chat_complete oracle record = (record, false)) ∧
    (record.code_block ≠ [] → ∀ e, oracle (messagesArg record) = .error e →
        chat_complete oracle record = (record, true)) ∧
    (∀ batch : List Record, (processBatch oracle batch).length = batch.length ∧
      ∀ i (h1 : i < (processBatch oracle batch).length) (h2 : i < batch.length),
        (processBatch oracle batch).get ⟨i, h1⟩
          = (chat_complete oracle (batch.get ⟨i, h2⟩)).1) := by
  refine ⟨?_, ?_, ?_⟩
  · intro h
    unfold chat_complete
    rw [if_pos (by simpa using h)]
  · intro hne e he
    unfold chat_complete
    rw [if_neg (by simpa using hne), he]
  · intro batch
    refine ⟨by simp [processBatch], ?_⟩
    intro i h1 h2
    simp [processBatch]

/-- Witness for C8: a snippet-less finding is skipped; a failing request on
a finding with a snippet leaves it unchanged; a two-element batch maps
element-wise. -/
theorem chat_complete_spec_witness :
    chat_complete (fun _ => .error (str "boom"))
        ⟨str "c", none, [], []⟩ = (⟨str "c", none, [], []⟩, false) ∧
    chat_complete (fun _ => .error (str "boom")) (mkRecord 1) = (mkRecord 1, true) ∧
    (processBatch (fun _ => .error (str "boom")) [mkRecord 1, mkRecord 2]).length = 2 ∧
    (processBatch (fun _ => .error (str "boom")) [mkRecord 1, mkRecord 2]).get
        ⟨0, by decide⟩
      = (chat_complete (fun _ => .error (str "boom"))
          ([mkRecord 1, mkRecord 2].get ⟨0, by decide⟩)).1 :=
  ⟨(chat_complete_spec (fun _ => .error (str "boom")) ⟨str "c", none, [], []⟩).1 rfl,
   (chat_complete_spec (fun _ => .error (str "boom")) (mkRecord 1)).2.1
     (by decide) (str "boom") rfl,
   ((chat_complete_spec (fun _ => .error (str "boom")) (mkRecord 1)).2.2
     [mkRecord 1, mkRecord 2]).1,
   ((chat_complete_spec (fun _ => .error (str "boom")) (mkRecord 1)).2.2
     [mkRecord 1, mkRecord 2]).2 0 (by simp [processBatch]) (by decide)⟩

/-- C9 counterexample: for the concrete finding `mkRecord 3` (which has a
code snippet) the `messages=` argument of the completion call IS the full
three-message {system, user-prompt, user-"Explain"} sequence: the
one-element tuple created by the trailing comma is unwrapped again by the
`messages[0]` index, so the call does not receive the wrapping tuple. -/
theorem messagesArg_counterexample :
    (mkRecord 3).code_block ≠ [] ∧
    messagesArg (mkRecord 3)
      = [⟨str "system", str "You are a security tool"⟩,
         ⟨str "user", promptContent (mkRecord 3)⟩,
         ⟨str "user", str "Explain"⟩] ∧
    (messagesArg (mkRecord 3)).length = 3 ∧
    messagesAssigned (mkRecord 3) = [messagesArg (mkRecord 3)] :=
  ⟨by decide, rfl, rfl, rfl⟩

/-- C9 (amended): the assignment wraps the three-message list in a
one-element tuple, but the call passes element `0` of that tuple, so for
every finding with a code snippet the `messages=` argument is exactly the
full {system, user-prompt, user-"Explain"} sequence. -/
theorem messagesArg_spec (record : Record) (h : record.code_block ≠ []) :
    messagesArg record
      = [⟨str "system", str "You are a security tool"⟩,
         ⟨str "user", promptContent record⟩,
         ⟨str "user", str "Explain"⟩] ∧
    messagesAssigned record = [messagesArg record] ∧
    (messagesArg record).length = 3 :=
  ⟨rfl, rfl, rfl⟩

/-- Witness for C9 (amended) at the concrete finding `mkRecord 4`. -/
theorem messagesArg_spec_witness :
    messagesArg (mkRecord 4)
      = [⟨str "system", str "You are a security tool"⟩,
         ⟨str "user", promptContent (mkRecord 4)⟩,
         ⟨str "user", str "Explain"⟩] ∧
    messagesAssigned (mkRecord 4) = [messagesArg (mkRecord 4)] ∧
    (messagesArg (mkRecord 4)).length = 3 :=
  messagesArg_spec (mkRecord 4) (by decide)

/-- C10: a successful completion returning empty content parses to the
empty list — the disclaimer is emitted only for non-empty content — and
since an empty parse result is not stored, the finding's details are left
unchanged. -/
theorem empty_completion_spec (oracle : List ChatMessage → Except Str Str)
    (record : Record) :
    parse_completion_response [] = [] ∧
    (∀ content : Str, content ≠ [] →
        (parse_completion_response content).head? = some disclaimerLine) ∧
    (record.code_block ≠ [] → oracle (messagesArg record) = .ok [] →
        chat_complete oracle record = (record, true) ∧
        (chat_complete oracle record).1.details = record.details) := by
  refine ⟨rfl, ?_, ?_⟩
  · intro content hc
    unfold parse_completion_response
    rw [if_neg (by simpa using hc)]
    rfl
  · intro hne he
    have h : chat_complete oracle record = (record, true) := by
      unfold chat_complete
      rw [if_neg (by simpa using hne), he]
      rfl
    exact ⟨h, by rw [h]⟩

/-- Witness for C10: an oracle returning empty content on a finding with a
code snippet leaves the finding's details unchanged. -/
theorem empty_completion_spec_witness :
    (parse_completion_response (str "x")).head? = some disclaimerLine ∧
    chat_complete (fun _ => .ok []) (mkRecord 6) = (mkRecord 6, true) ∧
    (chat_complete (fun _ => .ok []) (mkRecord 6)).1.details = (mkRecord 6).details :=
  ⟨(empty_completion_spec (fun _ => .ok []) (mkRecord 6)).2.1 (str "x") (by decide),
   ((empty_completion_spec (fun _ => .ok []) (mkRecord 6)).2.2 (by decide) rfl).1,
   ((empty_completion_spec (fun _ => .ok []) (mkRecord 6)).2.2 (by decide) rfl).2⟩

end Checkov
